import Mathlib

/-!
Verification of `amptorch/active_learning/learner.py`
(class `AtomisticActiveLearner`).

Shallow embedding conventions:
* An ASE `Atoms` object is abstracted to a `Nat` identifier (`Atoms`); a
  trained calculator to a `Nat` identifier (`MLCalc`).  The claims under
  study only concern the orchestration logic of the learner, never the
  numerical content of structures or models.
* `self.training_data` is a plain Python list of `Atoms` when ensembling
  is disabled and a list of per-member datasets (each a list of `Atoms`)
  when ensembling is enabled (`bootstrap_ensemble` returns the latter).
  This is modelled by the sum type `TrainData`.
* When ensembling is disabled, `__init__` (line 77) sets
  `self.parent_dataset = self.training_data`, i.e. the two attributes are
  the SAME list object, and every later rebinding
  (`self.parent_dataset, self.training_data = self.add_data(...)`)
  re-establishes that sharing because the non-ensemble branch of
  `add_data` mutates the shared list in place (`+=`) and returns it for
  both components.  The embedding therefore updates both fields together
  in the append branch of `add_data`, which is exactly the alias-aware
  value semantics of the Python code.
* External collaborators (`query_strategy`, `train_calcs`,
  `atomistic_method.run`/`get_trajectory`, `termination_criteria`,
  `neb_query`, `bootstrap_ensemble`) live outside `learner.py`.  They are
  modelled as opaque function fields of an `Env` record, universally
  quantified in the theorems; the learner only threads values through
  them.
* Python dictionary reads `al_convergence[key]` may raise `KeyError`;
  the corresponding configuration fields are `Option`s and the learner
  functions return `Except PyErr _`.
* The `while not f_terminate` loop may not terminate; it is run with
  explicit fuel, and fuel exhaustion is reported as a distinct outcome
  (`LoopRes.fuelOut` / `Except.ok none`), separate from normal exit.
* I/O side effects (`ase.db` writes, `os.makedirs`, plotting, prints)
  have no bearing on the claims' state and are not modelled; the queried
  images handed to `write_to_db` are exposed in the per-iteration
  `StepOut` record instead.
-/

/-- An atomic configuration (ASE `Atoms` object), abstracted to an id. -/
abbrev Atoms := Nat

/-- A trained ML calculator (result of `train_calcs`), abstracted to an id. -/
abbrev MLCalc := Nat

/-- `self.training_data`: a flat list of images when ensembling is disabled,
a list of per-member resampled datasets when ensembling is enabled. -/
inductive TrainData where
  | single : List Atoms → TrainData
  | members : List (List Atoms) → TrainData
deriving DecidableEq, Repr

/-- Python exceptions the learner can raise. -/
inductive PyErr where
  | keyError (key : String)
  | assertError (msg : String)
  | unboundLocal (name : String)
deriving DecidableEq, Repr

/-- Termination reason printed at the end of `learn`
(lines 176-179 of `learner.py`). -/
inductive StopReason where
  | maxIterations
  | convergenceMet
deriving DecidableEq, Repr

/-- The configuration the learner reads from `training_params` /
`training_params["al_convergence"]`.  Keys whose absence matters to a claim
are `Option`s (a `none` read raises `KeyError`). `filename`, `file_dir`,
`cores` and `Gs` only feed I/O and the opaque trainer and are omitted. -/
structure Params where
  method : String
  num_iterations : Option Nat
  energy_tol : Option Nat
  force_tol : Option Nat
  convergence_check : Option Bool
  samples_to_retrain : Nat
deriving DecidableEq, Repr

/-- Mutable attributes of `AtomisticActiveLearner`.
`ensemble = 0` encodes a falsy `ensemble` argument; after a successful
ensemble construction it holds the (integer `> 1`) ensemble size. -/
structure LState where
  training_data : TrainData
  parent_dataset : List Atoms
  parent_calls : Nat
  iteration : Nat
  ensemble : Nat
deriving DecidableEq, Repr

/-- External collaborators of the learner, none of which are defined in
`learner.py`; the learner treats them as opaque callables.
* `query_strategy pd cands n` — the `query_strategy(parent_dataset,
  sample_candidates, samples_to_retrain, parent_calc=...)` call (line 93).
* `train_calcs td n` — `train_calcs(...)` (line 104), abstracted to its
  inputs that vary across iterations.
* `trajectory i calc` — `atomistic_method.run` + `get_trajectory` for the
  iteration labelled `i` (lines 111-113).
* `termIter cur tot images etol cc` — `termination_criteria(method="iter",...)`
  returning `(terminate, metric, tested_image)` (line 134).
* `termFinal images etol ftol` — `termination_criteria(method="final",...)`
  returning `(terminate, metric)` (line 150).
* `nebQuery cur tot images n etol ml2relax` — `neb_query(...)` returning
  `(terminate, metric, queried_images)` (line 165).
* `bootstrap pd td q n` — `bootstrap_ensemble(parent_dataset,
  training_data, query, n_ensembles=n)` returning
  `(training_data, parent_dataset)` (lines 188-193).
* `bootstrap_init td n` — `bootstrap_ensemble(training_data, n_ensembles=n)`
  used in `__init__` (lines 70-72). -/
structure Env where
  query_strategy : List Atoms → List Atoms → Nat → List Atoms
  train_calcs : TrainData → Nat → MLCalc
  trajectory : Nat → MLCalc → List Atoms
  termIter : Nat → Nat → List Atoms → Nat → Bool → Bool × Nat × List Atoms
  termFinal : List Atoms → Nat → Nat → Bool × Nat
  nebQuery : Nat → Nat → List Atoms → Nat → Nat → Bool → Bool × Nat × List Atoms
  bootstrap : List Atoms → TrainData → Atoms → Nat → TrainData × List Atoms
  bootstrap_init : List Atoms → Nat → TrainData × List Atoms
  intermediate_samples : Nat
  ml2relax : Bool

/-! ## `add_data` (lines 185-196) -/

/-- The `for query in queried_images` loop of the ensemble branch of
`add_data` (lines 187-193): sequentially rebinds
`self.training_data, self.parent_dataset = bootstrap_ensemble(
self.parent_dataset, self.training_data, query, n_ensembles=self.ensemble)`
and finally yields `(training_data, parent_dataset)`. -/
def bootLoop (env : Env) (n : Nat) :
    List Atoms → TrainData → List Atoms → TrainData × List Atoms
  | pd, td, [] => (td, pd)
  | pd, td, q :: qs =>
      let r := env.bootstrap pd td q n
      bootLoop env n r.2 r.1 qs

/-- `AtomisticActiveLearner.add_data` (lines 185-196).  Returns the updated
learner state together with the returned pair
`(self.parent_dataset, self.training_data)` (line 196).
In the non-ensemble branch, `self.training_data += queried_images` extends
the list object that `self.parent_dataset` also refers to (see the header
comment on aliasing), so both fields are updated together.  The
`.members` case under `ensemble = 0` is unreachable for states produced
by `__init__` (which pairs `ensemble = 0` with `.single`) and is left
unchanged. -/
def add_data (env : Env) (st : LState) (queried_images : List Atoms) :
    LState × (List Atoms × TrainData) :=
  if st.ensemble ≠ 0 then
    let r := bootLoop env st.ensemble st.parent_dataset st.training_data queried_images
    ({ st with training_data := r.1, parent_dataset := r.2 }, (r.2, r.1))
  else
    match st.training_data with
    | .single xs =>
        let xs' := xs ++ queried_images
        ({ st with training_data := .single xs', parent_dataset := xs' },
         (xs', .single xs'))
    | .members ms =>
        (st, (st.parent_dataset, .members ms))

/-- The aliasing invariant of non-ensemble learners: `self.parent_dataset`
and `self.training_data` are the same list (`__init__` line 77). -/
def Aliased (st : LState) : Prop :=
  st.training_data = .single st.parent_dataset

instance (st : LState) : Decidable (Aliased st) := by
  unfold Aliased; infer_instance

/-! ## `__init__` (lines 59-77) -/

/-- A Python value passed as the `ensemble` argument.  `bool` is a
subclass of `int` in Python, so `isinstance(True, int)` holds; floats are
not `int`s.  The payload of `pyfloat` is an abstract surrogate used only
for truthiness. -/
inductive PyNum where
  | pybool (b : Bool)
  | pyint (n : Int)
  | pyfloat (v : Int)
deriving DecidableEq, Repr

/-- Python truthiness of the `ensemble` argument (`if ensemble:`). -/
def truthy : PyNum → Bool
  | .pybool b => b
  | .pyint n => n ≠ 0
  | .pyfloat v => v ≠ 0

/-- `isinstance(ensemble, int)`. -/
def isInstInt : PyNum → Bool
  | .pybool _ => true
  | .pyint _ => true
  | .pyfloat _ => false

/-- The integer value used by `ensemble > 1` (`True == 1`, `False == 0`). -/
def toI : PyNum → Int
  | .pybool b => if b then 1 else 0
  | .pyint n => n
  | .pyfloat v => v

/-- `AtomisticActiveLearner.__init__` (lines 59-77).  The `assert` at line
69 raises `AssertionError("Invalid ensemble!")` when a truthy `ensemble`
is not an integer strictly greater than 1.  `copy.deepcopy` is value
semantics in the embedding; `make_fps` is a fingerprinting side effect
with no learner-state footprint. -/
def initLearner (env : Env) (training_data : List Atoms) (ensemble : PyNum) :
    Except PyErr LState :=
  if truthy ensemble then
    if isInstInt ensemble ∧ 1 < toI ensemble then
      let n := (toI ensemble).toNat
      let r := env.bootstrap_init training_data n
      .ok { training_data := r.1, parent_dataset := r.2,
            parent_calls := 0, iteration := 0, ensemble := n }
    else
      .error (.assertError "Invalid ensemble!")
  else
    .ok { training_data := .single training_data, parent_dataset := training_data,
          parent_calls := 0, iteration := 0, ensemble := 0 }

/-! ## The per-iteration body of `learn` (lines 89-174) -/

/-- The query phase of one loop iteration (lines 92-101): executed only
when `self.iteration > 0 and method != 'neb_iter'`; queries the strategy,
merges the result via `add_data` and bumps `self.parent_calls` by the
number of queried images.  Also returns whether the phase ran and the
queried images (which line 99 persists to the database). -/
def queryPhase (env : Env) (p : Params) (st : LState) (cands : List Atoms) :
    LState × Bool × List Atoms :=
  if 0 < st.iteration ∧ p.method ≠ "neb_iter" then
    let queried := env.query_strategy st.parent_dataset cands p.samples_to_retrain
    let st1 := (add_data env st queried).1
    ({ st1 with parent_calls := st1.parent_calls + queried.length }, true, queried)
  else
    (st, false, [])

/-- Lines 103-120 of one loop iteration: query phase, training, running the
atomistic method, collecting (and, in `neb_iter` mode, slicing to the last
`intermediate_samples + 2`) candidates, and `self.iteration += 1`.
Returns the state entering the convergence dispatch, the trained
calculator and the `sample_candidates` list. -/
def stepPre (env : Env) (p : Params) (st : LState) (cands : List Atoms) :
    LState × MLCalc × List Atoms :=
  let st1 := (queryPhase env p st cands).1
  let mlc := env.train_calcs st1.training_data st1.ensemble
  let traj := env.trajectory st1.iteration mlc
  let cands1 :=
    if p.method = "neb_iter" then
      traj.drop (traj.length - (env.intermediate_samples + 2))
    else traj
  ({ st1 with iteration := st1.iteration + 1 }, mlc, cands1)

/-- Observable outcome of one iteration of the `while` loop. -/
structure StepOut where
  st : LState
  cands : List Atoms
  terminate : Bool
  metric : Nat
  calcOut : MLCalc
  queryRan : Bool
  queried_images : List Atoms
  evalCalls : Nat
  evalMerged : List Atoms
deriving DecidableEq, Repr

/-- One iteration of the `while not f_terminate` loop (lines 89-174).
Dictionary keys are read in source order, so the first missing key names
the `KeyError`.  An unknown `method` leaves the loop-local `terminate`
unbound at line 174 (`UnboundLocalError`). -/
def learnStep (env : Env) (p : Params) (st0 : LState) (cands0 : List Atoms) :
    Except PyErr StepOut :=
  let q := queryPhase env p st0 cands0
  let pre := stepPre env p st0 cands0
  let st2 := pre.1
  let mlc := pre.2.1
  let cands1 := pre.2.2
  if p.method = "iter" then
    match p.num_iterations with
    | none => .error (.keyError "num_iterations")
    | some tot =>
      match p.energy_tol with
      | none => .error (.keyError "energy_tol")
      | some et =>
        match p.convergence_check with
        | none => .error (.keyError "convergence_check")
        | some cc =>
          let r := env.termIter st2.iteration tot cands1 et cc
          if cc then
            let st3 := { st2 with parent_calls := st2.parent_calls + 1 }
            let st4 := (add_data env st3 r.2.2).1
            .ok ⟨st4, cands1, r.1, r.2.1, mlc, q.2.1, q.2.2, 1, r.2.2⟩
          else
            .ok ⟨st2, cands1, r.1, r.2.1, mlc, q.2.1, q.2.2, 0, []⟩
  else if p.method = "final" then
    match p.energy_tol with
    | none => .error (.keyError "energy_tol")
    | some et =>
      match p.force_tol with
      | none => .error (.keyError "force_tol")
      | some ft =>
        let st3 := { st2 with parent_calls := st2.parent_calls + 1 }
        let r := env.termFinal cands1 et ft
        .ok ⟨st3, cands1, r.1, r.2, mlc, q.2.1, q.2.2, 1, []⟩
  else if p.method = "neb_iter" then
    match p.num_iterations with
    | none => .error (.keyError "num_iterations")
    | some tot =>
      match p.energy_tol with
      | none => .error (.keyError "energy_tol")
      | some et =>
        let r := env.nebQuery st2.iteration tot cands1 p.samples_to_retrain et env.ml2relax
        let st3 := (add_data env st2 r.2.2).1
        let st4 := { st3 with parent_calls := st3.parent_calls + r.2.2.length }
        .ok ⟨st4, cands1, r.1, r.2.1, mlc, q.2.1, q.2.2, r.2.2.length, r.2.2⟩
  else
    .error (.unboundLocal "terminate")

/-- Result of running the `while` loop to completion or out of fuel. -/
inductive LoopRes where
  | finished (st : LState) (mlc : MLCalc) (convList : List Nat) (trace : List StepOut)
  | fuelOut (st : LState) (cands : List Atoms) (convList : List Nat) (trace : List StepOut)
deriving DecidableEq, Repr

/-- Final learner state of a loop run. -/
def LoopRes.state : LoopRes → LState
  | .finished st _ _ _ => st
  | .fuelOut st _ _ _ => st

/-- Per-iteration trace of a loop run. -/
def LoopRes.trace : LoopRes → List StepOut
  | .finished _ _ _ tr => tr
  | .fuelOut _ _ _ tr => tr

/-- The `while not f_terminate` loop (lines 89-174), with explicit fuel.
`convList` accumulates `convergence_criteria_list`; `trace` records each
iteration's `StepOut`. -/
def runLoop (env : Env) (p : Params) :
    Nat → LState → List Atoms → List Nat → List StepOut → Except PyErr LoopRes
  | 0, st, cands, cl, tr => .ok (.fuelOut st cands cl tr)
  | fuel + 1, st, cands, cl, tr =>
      match learnStep env p st cands with
      | .error e => .error e
      | .ok out =>
          if out.terminate then
            .ok (.finished out.st out.calcOut (cl ++ [out.metric]) (tr ++ [out]))
          else
            runLoop env p fuel out.st out.cands (cl ++ [out.metric]) (tr ++ [out])

/-- `AtomisticActiveLearner.learn` (lines 79-183): run the loop, then the
terminal report (lines 176-179) reads `al_convergence["num_iterations"]`
and prints exactly one of the two termination messages; finally the
trained calculator and `self.iteration` are returned (line 183).
`Except.ok none` means the fuel ran out before the loop exited. -/
def learn (env : Env) (p : Params) (fuel : Nat) (st0 : LState) :
    Except PyErr (Option (MLCalc × Nat × StopReason)) :=
  match runLoop env p fuel st0 [] [] [] with
  | .error e => .error e
  | .ok (.fuelOut _ _ _ _) => .ok none
  | .ok (.finished st mlc _ _) =>
      match p.num_iterations with
      | none => .error (.keyError "num_iterations")
      | some tot =>
          .ok (some (mlc, st.iteration,
            if tot ≤ st.iteration then .maxIterations else .convergenceMet))

/-! ## Spec-modelled bootstrap ensembler (for concrete instantiations) -/

/-- One bootstrap resample: draw `xs.length` samples with replacement from
`xs`, positions chosen by the injected random stream `draw`. -/
def resample (draw : Nat → Nat) (xs : List Atoms) : List Atoms :=
  (List.range xs.length).map fun i => xs.getD (draw i % xs.length) 0

/-- Modelled from the spec: the function `bootstrap_ensemble` of
`amptorch.active_learning.bootstrap` is not among the analysed sources
(only its caller `learner.py` is).  Per spec §3/§4.1 it appends the newly
queried structure to the ParentDataset and regenerates all `n_ensembles`
member TrainingSets, each a bootstrap resample (sampling with replacement)
of the updated ParentDataset; per spec §9 the random source is an explicit
injected dependency (`draws`, one stream per member).  The current member
sets are superseded by the regeneration, matching "regenerating all N
member TrainingSets". -/
def bootstrap_ensemble_spec (draws : Nat → Nat → Nat)
    (parent_dataset : List Atoms) (training_data : TrainData) (query : Atoms)
    (n_ensembles : Nat) : TrainData × List Atoms :=
  let _ := training_data
  let parent' := parent_dataset ++ [query]
  (.members ((List.range n_ensembles).map fun m => resample (draws m) parent'),
   parent')

/-- A concrete environment used to instantiate the universally quantified
theorems on explicit inputs. -/
def envC : Env where
  query_strategy := fun _ _ _ => [5]
  train_calcs := fun _ _ => 0
  trajectory := fun _ _ => [3, 4]
  termIter := fun _ _ _ _ _ => (true, 2, [9])
  termFinal := fun _ _ _ => (true, 2)
  nebQuery := fun _ _ _ _ _ _ => (true, 2, [7, 8])
  bootstrap := bootstrap_ensemble_spec fun _ _ => 1
  bootstrap_init := fun td n => (.members (List.replicate n td), td)
  intermediate_samples := 1
  ml2relax := false

/-! ## Concrete states for instantiating theorems -/

/-- A non-ensemble learner state (as produced by `__init__` with
`ensemble=False` on `[1, 2]`). -/
def stNE : LState :=
  { training_data := .single [1, 2], parent_dataset := [1, 2],
    parent_calls := 0, iteration := 0, ensemble := 0 }

/-- An ensemble learner state of size 2 about to run its second
iteration. -/
def stEns : LState :=
  { training_data := .members [[0], [0]], parent_dataset := [0],
    parent_calls := 0, iteration := 1, ensemble := 2 }


/-- The number of `self.parent_calls` increments performed by one loop
iteration, split exactly as the sources do it: the query phase adds the
number of queried images (line 101), `final` mode adds 1 (line 149),
`iter` mode adds 1 when `convergence_check` is `True` (line 138), and
`neb_iter` mode adds the number of images queried by `neb_query`
(line 172). -/
def stepOracleCost (p : Params) (o : StepOut) : Nat :=
  o.queried_images.length
    + (if p.method = "final" then 1 else 0)
    + (if p.method = "iter" ∧ p.convergence_check = some true then 1 else 0)
    + (if p.method = "neb_iter" then o.evalMerged.length else 0)

/-- Default element for positional access into bootstrap call traces. -/
def dfltCall : List Atoms × TrainData × Atoms := ([], .single [], 0)

/-- The sequence of argument triples `(parent_dataset, training_data, query)`
passed to `bootstrap_ensemble` by the `for query in queried_images` loop of
`add_data` (lines 187-193), in call order: each recursive step threads the
`(training_data, parent_dataset)` pair returned by the previous call,
exactly as `bootLoop` does. -/
def addDataCalls (env : Env) (n : Nat) :
    List Atoms → TrainData → List Atoms → List (List Atoms × TrainData × Atoms)
  | _, _, [] => []
  | pd, td, q :: qs =>
      let r := env.bootstrap pd td q n
      (pd, td, q) :: addDataCalls env n r.2 r.1 qs

/-- Boolean prefix test on training data: the old value must be an initial
segment of the new one, within the same representation. -/
def tdPreB : TrainData → TrainData → Bool
  | .single xs, .single ys => xs.isPrefixOf ys
  | .members ms, .members ns => ms.isPrefixOf ns
  | _, _ => false

/-- Number of entries of the training data (images in non-ensemble mode,
member datasets in ensemble mode). -/
def tdLen : TrainData → Nat
  | .single xs => xs.length
  | .members ms => ms.length

/-- A `final`-mode configuration with every key present. -/
def pFin : Params :=
  { method := "final", num_iterations := some 2, energy_tol := some 0,
    force_tol := some 0, convergence_check := none, samples_to_retrain := 1 }

/-- An `iter`-mode configuration with `convergence_check` enabled. -/
def pIter : Params :=
  { method := "iter", num_iterations := some 2, energy_tol := some 0,
    force_tol := none, convergence_check := some true, samples_to_retrain := 1 }

/-- A `final`-mode configuration whose `al_convergence` dictionary lacks
the `num_iterations` key. -/
def p10 : Params :=
  { method := "final", num_iterations := none, energy_tol := some 0,
    force_tol := some 0, convergence_check := none, samples_to_retrain := 1 }

/-- `stNE` one iteration into a run. -/
def stNE1 : LState :=
  { training_data := .single [1, 2], parent_dataset := [1, 2],
    parent_calls := 0, iteration := 1, ensemble := 0 }

/-- The `StepOut` of `learnStep envC pFin stNE1 []`. -/
def oC2 : StepOut :=
  { st := { training_data := .single [1, 2, 5], parent_dataset := [1, 2, 5],
            parent_calls := 2, iteration := 2, ensemble := 0 },
    cands := [3, 4], terminate := true, metric := 2, calcOut := 0,
    queryRan := true, queried_images := [5], evalCalls := 1, evalMerged := [] }

/-- The `StepOut` of `learnStep envC pFin stNE []`. -/
def oC5 : StepOut :=
  { st := { training_data := .single [1, 2], parent_dataset := [1, 2],
            parent_calls := 1, iteration := 1, ensemble := 0 },
    cands := [3, 4], terminate := true, metric := 2, calcOut := 0,
    queryRan := false, queried_images := [], evalCalls := 1, evalMerged := [] }

/-- The `LoopRes` of `runLoop envC pFin 3 stNE [] [] []`. -/
def rC5 : LoopRes := .finished oC5.st 0 [2] [oC5]

/-! ## END-OF-DEFINITIONS marker -/

/-! ## Basic lemmas about `add_data` -/

theorem add_data_parent_calls (env : Env) (st : LState) (qs : List Atoms) :
    (add_data env st qs).1.parent_calls = st.parent_calls := by
  unfold add_data
  split
  · rfl
  · split <;> rfl

theorem add_data_iteration (env : Env) (st : LState) (qs : List Atoms) :
    (add_data env st qs).1.iteration = st.iteration := by
  unfold add_data
  split
  · rfl
  · split <;> rfl

theorem add_data_ensemble (env : Env) (st : LState) (qs : List Atoms) :
    (add_data env st qs).1.ensemble = st.ensemble := by
  unfold add_data
  split
  · rfl
  · split <;> rfl

theorem add_data_nonensemble (env : Env) (st : LState) (qs : List Atoms)
    (h0 : st.ensemble = 0) (ha : Aliased st) :
    add_data env st qs =
      ({ st with training_data := .single (st.parent_dataset ++ qs),
                 parent_dataset := st.parent_dataset ++ qs },
       (st.parent_dataset ++ qs, .single (st.parent_dataset ++ qs))) := by
  unfold add_data
  rw [if_neg (by simp [h0]), ha]

/-- `__init__` with a falsy `ensemble` argument establishes the alias. -/
theorem initLearner_falsy (env : Env) (td : List Atoms) (e : PyNum)
    (he : truthy e = false) :
    initLearner env td e =
      .ok { training_data := .single td, parent_dataset := td,
            parent_calls := 0, iteration := 0, ensemble := 0 } := by
  unfold initLearner
  rw [if_neg (by simp [he])]

/-! ## C6 -/

/-- C6: when ensembling is disabled, `add_data(queried_images)` appends the
queried structures to the training set in order and returns
`(parent_dataset, training_set)` with the parent identical (same
object/value) to the training set; the identity is established by
`__init__` (line 77) and re-established after every `add_data` call, so it
holds for the lifetime of the learner. -/
theorem C6_nonensemble_parent_is_training (env : Env) (st : LState)
    (qs : List Atoms) (h0 : st.ensemble = 0) (ha : Aliased st) :
    (∀ env2 td2 st2, initLearner env2 td2 (.pybool false) = .ok st2 →
        Aliased st2 ∧ st2.ensemble = 0) ∧
    (add_data env st qs).2 =
      (st.parent_dataset ++ qs, .single (st.parent_dataset ++ qs)) ∧
    (add_data env st qs).1.training_data = .single (st.parent_dataset ++ qs) ∧
    Aliased (add_data env st qs).1 ∧
    (add_data env st qs).1.ensemble = 0 := by
  have h := add_data_nonensemble env st qs h0 ha
  refine ⟨?_, ?_, ?_, ?_, ?_⟩
  · intro env2 td2 st2 hinit
    rw [initLearner_falsy env2 td2 (.pybool false) rfl] at hinit
    simp only [Except.ok.injEq] at hinit
    subst hinit
    exact ⟨rfl, rfl⟩
  · rw [h]
  · rw [h]
  · rw [h]; rfl
  · rw [h]; exact h0

/-- Witness for C6 at a concrete non-ensemble state. -/
theorem C6_witness :
    stNE.ensemble = 0 ∧ Aliased stNE ∧
    (add_data envC stNE [7]).2 = ([1, 2, 7], .single [1, 2, 7]) ∧
    Aliased (add_data envC stNE [7]).1 :=
  ⟨rfl, rfl,
   (C6_nonensemble_parent_is_training envC stNE [7] rfl rfl).2.1,
   (C6_nonensemble_parent_is_training envC stNE [7] rfl rfl).2.2.2.1⟩

/-! ## C7 -/

/-- C7: `add_data([])` is a no-op: for an ensemble learner the
`for` loop runs zero times; for a non-ensemble learner (whose parent
dataset is the training-set list itself) `+= []` changes nothing; in both
cases the state is unchanged and the returned pair is exactly
`(parent_dataset, training_data)`. -/
theorem C7_add_data_nil (env : Env) (st : LState)
    (h : st.ensemble = 0 → Aliased st) :
    add_data env st [] = (st, (st.parent_dataset, st.training_data)) := by
  by_cases h0 : st.ensemble = 0
  · have ha := h h0
    obtain ⟨td, pd, pc, it, en⟩ := st
    simp only [Aliased] at ha
    subst ha
    rw [add_data_nonensemble _ _ _ h0 rfl]
    simp
  · unfold add_data
    rw [if_pos h0]
    exact rfl

/-- Witness for C7 at a concrete ensemble state. -/
theorem C7_witness :
    add_data envC stEns [] = (stEns, ([0], .members [[0], [0]])) :=
  C7_add_data_nil envC stEns (by decide)

/-! ## C9 -/

/-- C9: constructing an `AtomisticActiveLearner` with a truthy `ensemble`
argument succeeds exactly when that argument is an integer strictly
greater than 1 (`assert isinstance(ensemble, int) and ensemble > 1`,
line 69, noting that Python `bool` is a subclass of `int`); otherwise the
constructor raises `AssertionError("Invalid ensemble!")` immediately.
The check appears only in `__init__`; `add_data` performs no validation
(it is a total function in this embedding, mirroring the absence of any
assert in lines 185-196). -/
theorem C9_init_ensemble_validation (env : Env) (td : List Atoms) (e : PyNum)
    (ht : truthy e = true) :
    ((isInstInt e = true ∧ 1 < toI e) →
        initLearner env td e =
          .ok { training_data := (env.bootstrap_init td (toI e).toNat).1,
                parent_dataset := (env.bootstrap_init td (toI e).toNat).2,
                parent_calls := 0, iteration := 0,
                ensemble := (toI e).toNat }) ∧
    (¬(isInstInt e = true ∧ 1 < toI e) →
        initLearner env td e = .error (.assertError "Invalid ensemble!")) := by
  constructor
  · intro hv
    simp only [initLearner, ht, if_true, if_pos hv]
  · intro hv
    simp only [initLearner, ht, if_true, if_neg hv]

/-- Witness for C9: `ensemble=True` is truthy and an `int` in Python, but
equals 1, so construction fails with the assertion error. -/
theorem C9_witness :
    truthy (.pybool true) = true ∧
    initLearner envC [] (.pybool true) = .error (.assertError "Invalid ensemble!") :=
  ⟨rfl, (C9_init_ensemble_validation envC [] (.pybool true) rfl).2 (by decide)⟩

/-! ## Per-iteration accounting lemmas -/

theorem queryPhase_state (env : Env) (p : Params) (st : LState)
    (cands : List Atoms) :
    (queryPhase env p st cands).1.parent_calls
        = st.parent_calls + (queryPhase env p st cands).2.2.length ∧
    (queryPhase env p st cands).1.iteration = st.iteration ∧
    (queryPhase env p st cands).1.ensemble = st.ensemble := by
  unfold queryPhase
  split
  · simp [add_data_parent_calls, add_data_iteration, add_data_ensemble]
  · simp

theorem stepPre_state (env : Env) (p : Params) (st : LState)
    (cands : List Atoms) :
    (stepPre env p st cands).1.parent_calls
        = st.parent_calls + (queryPhase env p st cands).2.2.length ∧
    (stepPre env p st cands).1.iteration = st.iteration + 1 ∧
    (stepPre env p st cands).1.ensemble = st.ensemble ∧
    (stepPre env p st cands).1.training_data
        = (queryPhase env p st cands).1.training_data := by
  have hq := queryPhase_state env p st cands
  refine ⟨hq.1, ?_, hq.2.2, rfl⟩
  show (queryPhase env p st cands).1.iteration + 1 = st.iteration + 1
  rw [hq.2.1]


theorem costFinal_eq_zero (p : Params) (h : p.method ≠ "final") :
    (if p.method = "final" then 1 else 0) = 0 := if_neg h

theorem costIterCC_eq_zero (p : Params)
    (h : ¬(p.method = "iter" ∧ p.convergence_check = some true)) :
    (if p.method = "iter" ∧ p.convergence_check = some true then 1 else 0) = 0 :=
  if_neg h

theorem costNeb_eq_zero (p : Params) (k : Nat) (h : p.method ≠ "neb_iter") :
    (if p.method = "neb_iter" then k else 0) = 0 := if_neg h

/-- Shape of every successful loop iteration: the query-phase trace fields
are those of `queryPhase`, `parent_calls` advances by exactly
`stepOracleCost`, the iteration counter by one, and the ensemble size is
untouched. -/
theorem learnStep_ok_facts (env : Env) (p : Params) (st : LState)
    (cands : List Atoms) (o : StepOut)
    (h : learnStep env p st cands = .ok o) :
    o.queryRan = (queryPhase env p st cands).2.1 ∧
    o.queried_images = (queryPhase env p st cands).2.2 ∧
    o.st.parent_calls = st.parent_calls + stepOracleCost p o ∧
    o.st.iteration = st.iteration + 1 ∧
    o.st.ensemble = st.ensemble := by
  have hpre := stepPre_state env p st cands
  simp only [learnStep] at h
  split at h
  · -- p.method = "iter"
    next hm =>
    split at h
    · exact (Except.noConfusion h)
    · next tot hni =>
      split at h
      · exact (Except.noConfusion h)
      · next et het =>
        split at h
        · exact (Except.noConfusion h)
        · next cc hcc =>
          split at h
          · -- convergence_check true
            next hcct =>
            injection h with h
            subst h
            refine ⟨rfl, rfl, ?_, ?_, ?_⟩
            · rw [add_data_parent_calls]
              show (stepPre env p st cands).1.parent_calls + 1 = _
              rw [hpre.1]
              simp only [stepOracleCost,
                costFinal_eq_zero p (by rw [hm]; decide),
                if_pos (show p.method = "iter" ∧ p.convergence_check = some true
                  from ⟨hm, by rw [hcc, hcct]⟩),
                costNeb_eq_zero p _ (by rw [hm]; decide)]
              omega
            · rw [add_data_iteration]
              exact hpre.2.1
            · rw [add_data_ensemble]
              exact hpre.2.2.1
          · next hccf =>
            injection h with h
            subst h
            refine ⟨rfl, rfl, ?_, hpre.2.1, hpre.2.2.1⟩
            rw [hpre.1]
            simp only [stepOracleCost,
              costFinal_eq_zero p (by rw [hm]; decide),
              costIterCC_eq_zero p (by
                rintro ⟨-, h2⟩
                rw [hcc] at h2
                exact hccf (Option.some.inj h2)),
              costNeb_eq_zero p _ (by rw [hm]; decide)]
            omega
  · -- not "iter"
    next hm1 =>
    split at h
    · -- p.method = "final"
      next hm =>
      split at h
      · exact (Except.noConfusion h)
      · next et het =>
        split at h
        · exact (Except.noConfusion h)
        · next ft hft =>
          injection h with h
          subst h
          refine ⟨rfl, rfl, ?_, hpre.2.1, hpre.2.2.1⟩
          show (stepPre env p st cands).1.parent_calls + 1 = _
          rw [hpre.1]
          simp only [stepOracleCost, if_pos hm,
            costIterCC_eq_zero p (fun hx => hm1 hx.1),
            costNeb_eq_zero p _ (by rw [hm]; decide)]
          omega
    · next hm2 =>
      split at h
      · -- p.method = "neb_iter"
        next hm =>
        split at h
        · exact (Except.noConfusion h)
        · next tot hni =>
          split at h
          · exact (Except.noConfusion h)
          · next et het =>
            injection h with h
            subst h
            refine ⟨rfl, rfl, ?_, ?_, ?_⟩
            · rw [add_data_parent_calls]
              rw [hpre.1]
              simp only [stepOracleCost, costFinal_eq_zero p hm2,
                costIterCC_eq_zero p (fun hx => hm1 hx.1), if_pos hm]
              omega
            · rw [add_data_iteration]
              exact hpre.2.1
            · rw [add_data_ensemble]
              exact hpre.2.2.1
      · exact (Except.noConfusion h)

/-! ## Prefix lemmas for training data -/

theorem tdPreB_refl (a : TrainData) : tdPreB a a = true := by
  cases a with
  | single xs => simp [tdPreB, List.isPrefixOf_iff_prefix]
  | members ms => simp [tdPreB, List.isPrefixOf_iff_prefix]

theorem tdPreB_trans (a b c : TrainData) (h1 : tdPreB a b = true)
    (h2 : tdPreB b c = true) : tdPreB a c = true := by
  cases a <;> cases b <;> cases c <;>
    simp_all [tdPreB, List.isPrefixOf_iff_prefix] <;>
    exact List.IsPrefix.trans h1 h2

theorem tdPreB_append (xs qs : List Atoms) :
    tdPreB (.single xs) (.single (xs ++ qs)) = true := by
  simp [tdPreB, List.isPrefixOf_iff_prefix, List.prefix_append]

theorem tdPreB_len (a b : TrainData) (h : tdPreB a b = true) :
    tdLen a ≤ tdLen b := by
  cases a <;> cases b <;> simp_all [tdPreB, tdLen, List.isPrefixOf_iff_prefix] <;>
    exact List.IsPrefix.length_le h

theorem add_data_td_pre (env : Env) (st : LState) (qs : List Atoms)
    (h0 : st.ensemble = 0) :
    tdPreB st.training_data (add_data env st qs).1.training_data = true := by
  unfold add_data
  rw [if_neg (by simp [h0])]
  split
  · next xs heq => rw [heq]; exact tdPreB_append xs qs
  · next ms heq => exact tdPreB_refl _

theorem queryPhase_td_pre (env : Env) (p : Params) (st : LState)
    (cands : List Atoms) (h0 : st.ensemble = 0) :
    tdPreB st.training_data (queryPhase env p st cands).1.training_data = true := by
  unfold queryPhase
  split
  · exact add_data_td_pre env st _ h0
  · exact tdPreB_refl _

/-! ## Bootstrap call-trace lemmas -/

theorem addDataCalls_length (env : Env) (n : Nat) :
    ∀ (qs : List Atoms) (pd : List Atoms) (td : TrainData),
      (addDataCalls env n pd td qs).length = qs.length := by
  intro qs
  induction qs with
  | nil => intro pd td; rfl
  | cons q qs ih => intro pd td; simp [addDataCalls, ih]

theorem addDataCalls_getD (env : Env) (n : Nat) :
    ∀ (qs : List Atoms) (pd : List Atoms) (td : TrainData) (j : Nat),
      j < qs.length →
      (addDataCalls env n pd td qs).getD j dfltCall =
        ((bootLoop env n pd td (qs.take j)).2,
         (bootLoop env n pd td (qs.take j)).1,
         qs.getD j 0) := by
  intro qs
  induction qs with
  | nil => intro pd td j hj; exact absurd hj (by simp)
  | cons q qs ih =>
      intro pd td j hj
      cases j with
      | zero => rfl
      | succ j =>
          have hj' : j < qs.length := Nat.lt_of_succ_lt_succ hj
          simp only [addDataCalls, List.getD_cons_succ]
          rw [ih _ _ j hj']
          rfl

theorem bootLoop_take_succ (env : Env) (n : Nat) :
    ∀ (qs : List Atoms) (pd : List Atoms) (td : TrainData) (j : Nat),
      j < qs.length →
      bootLoop env n pd td (qs.take (j + 1)) =
        ((env.bootstrap (bootLoop env n pd td (qs.take j)).2
            (bootLoop env n pd td (qs.take j)).1 (qs.getD j 0) n).1,
         (env.bootstrap (bootLoop env n pd td (qs.take j)).2
            (bootLoop env n pd td (qs.take j)).1 (qs.getD j 0) n).2) := by
  intro qs
  induction qs with
  | nil => intro pd td j hj; exact absurd hj (by simp)
  | cons q qs ih =>
      intro pd td j hj
      cases j with
      | zero => rfl
      | succ j =>
          have hj' : j < qs.length := Nat.lt_of_succ_lt_succ hj
          exact ih _ _ j hj'

/-! ## C3 -/

/-- C3: with ensembling enabled, `add_data(queried_images)` drives the
bootstrap ensembler once per queried structure, sequentially in list
order.  `addDataCalls` is the argument trace of the `for` loop of
`add_data`: (i) there is exactly one call per queried image; (ii) the
`j`-th call receives the cumulative `(parent_dataset, training_data)`
produced by folding `bootstrap_ensemble` over the first `j` queried images
(so each invocation sees the parent dataset updated by the previous one)
together with the `j`-th image; (iii) adjacent calls are literally chained
through `bootstrap_ensemble`; and (iv) the learner state after `add_data`
is the fold of `bootstrap_ensemble` over the whole batch. -/
theorem C3_ensemble_sequential_bootstrap (env : Env) (st : LState)
    (qs : List Atoms) (h0 : st.ensemble ≠ 0) :
    (addDataCalls env st.ensemble st.parent_dataset st.training_data qs).length
        = qs.length ∧
    (∀ j, j < qs.length →
      (addDataCalls env st.ensemble st.parent_dataset st.training_data qs).getD
          j dfltCall =
        ((bootLoop env st.ensemble st.parent_dataset st.training_data
            (qs.take j)).2,
         (bootLoop env st.ensemble st.parent_dataset st.training_data
            (qs.take j)).1,
         qs.getD j 0)) ∧
    (∀ j, j + 1 < qs.length →
      (addDataCalls env st.ensemble st.parent_dataset st.training_data qs).getD
          (j + 1) dfltCall =
        ((env.bootstrap
            ((addDataCalls env st.ensemble st.parent_dataset st.training_data
                qs).getD j dfltCall).1
            ((addDataCalls env st.ensemble st.parent_dataset st.training_data
                qs).getD j dfltCall).2.1
            ((addDataCalls env st.ensemble st.parent_dataset st.training_data
                qs).getD j dfltCall).2.2
            st.ensemble).2,
         (env.bootstrap
            ((addDataCalls env st.ensemble st.parent_dataset st.training_data
                qs).getD j dfltCall).1
            ((addDataCalls env st.ensemble st.parent_dataset st.training_data
                qs).getD j dfltCall).2.1
            ((addDataCalls env st.ensemble st.parent_dataset st.training_data
                qs).getD j dfltCall).2.2
            st.ensemble).1,
         qs.getD (j + 1) 0)) ∧
    (add_data env st qs).1.training_data
        = (bootLoop env st.ensemble st.parent_dataset st.training_data qs).1 ∧
    (add_data env st qs).1.parent_dataset
        = (bootLoop env st.ensemble st.parent_dataset st.training_data qs).2 := by
  refine ⟨addDataCalls_length env st.ensemble qs _ _,
    fun j hj => addDataCalls_getD env st.ensemble qs _ _ j hj, ?_, ?_, ?_⟩
  · intro j hj
    have hj0 : j < qs.length := Nat.lt_of_succ_lt hj
    rw [addDataCalls_getD env st.ensemble qs _ _ j hj0,
        addDataCalls_getD env st.ensemble qs _ _ (j + 1) hj,
        bootLoop_take_succ env st.ensemble qs _ _ j hj0]
  · unfold add_data
    rw [if_pos h0]
  · unfold add_data
    rw [if_pos h0]

/-- Witness for C3 on a two-image batch against the spec-modelled
ensembler: the second call receives the parent dataset `[0, 5]` already
extended by the first call's image. -/
theorem C3_witness :
    (addDataCalls envC 2 [0] (.members [[0], [0]]) [5, 6]).length = 2 ∧
    (addDataCalls envC 2 [0] (.members [[0], [0]]) [5, 6]).getD 1 dfltCall =
      ([0, 5], .members [[5, 5], [5, 5]], 6) ∧
    (add_data envC stEns [5, 6]).1.parent_dataset = [0, 5, 6] := by
  have h := C3_ensemble_sequential_bootstrap envC stEns [5, 6] (by decide)
  exact ⟨h.1, h.2.1 1 (by decide), h.2.2.2.2⟩

/-! ## C2 -/

theorem queryPhase_pos (env : Env) (p : Params) (st : LState)
    (cands : List Atoms) (hc : 0 < st.iteration ∧ p.method ≠ "neb_iter") :
    queryPhase env p st cands =
      ({ (add_data env st
            (env.query_strategy st.parent_dataset cands p.samples_to_retrain)).1 with
         parent_calls :=
           (add_data env st
              (env.query_strategy st.parent_dataset cands p.samples_to_retrain)).1.parent_calls
             + (env.query_strategy st.parent_dataset cands p.samples_to_retrain).length },
       true, env.query_strategy st.parent_dataset cands p.samples_to_retrain) := by
  unfold queryPhase
  rw [if_pos hc]

theorem queryPhase_neg (env : Env) (p : Params) (st : LState)
    (cands : List Atoms) (hc : ¬(0 < st.iteration ∧ p.method ≠ "neb_iter")) :
    queryPhase env p st cands = (st, false, []) := by
  unfold queryPhase
  rw [if_neg hc]

/-- C2: in every successful loop iteration, the query phase runs exactly
when `self.iteration > 0 and method != 'neb_iter'` (line 92); when it
runs, the queried images are those returned by the query strategy, the
merge goes through `add_data` and `parent_calls` grows by the number of
queried images (lines 93-101); on iteration 0 and in `neb_iter` mode it
is skipped entirely (no strategy call, no merge, no count). -/
theorem C2_query_phase_guard (env : Env) (p : Params) (st : LState)
    (cands : List Atoms) (o : StepOut)
    (h : learnStep env p st cands = .ok o) :
    (o.queryRan = true ↔ (0 < st.iteration ∧ p.method ≠ "neb_iter")) ∧
    ((0 < st.iteration ∧ p.method ≠ "neb_iter") →
      o.queried_images
          = env.query_strategy st.parent_dataset cands p.samples_to_retrain ∧
      (queryPhase env p st cands).1 =
        { (add_data env st
             (env.query_strategy st.parent_dataset cands p.samples_to_retrain)).1 with
          parent_calls :=
            (add_data env st
               (env.query_strategy st.parent_dataset cands p.samples_to_retrain)).1.parent_calls
              + (env.query_strategy st.parent_dataset cands p.samples_to_retrain).length }) ∧
    (¬(0 < st.iteration ∧ p.method ≠ "neb_iter") →
      o.queryRan = false ∧ o.queried_images = [] ∧
      (queryPhase env p st cands).1 = st) := by
  have hf := learnStep_ok_facts env p st cands o h
  by_cases hc : 0 < st.iteration ∧ p.method ≠ "neb_iter"
  · have hq := queryPhase_pos env p st cands hc
    refine ⟨?_, fun _ => ⟨?_, ?_⟩, fun hx => absurd hc hx⟩
    · rw [hf.1, hq]
      simp [hc]
    · rw [hf.2.1, hq]
    · rw [hq]
  · have hq := queryPhase_neg env p st cands hc
    refine ⟨?_, fun hx => absurd hx hc, fun _ => ⟨?_, ?_, ?_⟩⟩
    · rw [hf.1, hq]
      simp [hc]
    · rw [hf.1, hq]
    · rw [hf.2.1, hq]
    · rw [hq]

/-- Witness for C2: at iteration 1 in `final` mode the query phase runs
and queries `[5]`. -/
theorem C2_witness :
    oC2.queryRan = true ∧ oC2.queried_images = [5] :=
  ⟨(C2_query_phase_guard envC pFin stNE1 [] oC2 rfl).1.mpr (by decide),
   ((C2_query_phase_guard envC pFin stNE1 [] oC2 rfl).2.1 (by decide)).1⟩

/-! ## Branch shape of `learnStep` in `final` mode -/

theorem learnStep_final_eq (env : Env) (p : Params) (st : LState)
    (cands : List Atoms) (et ft : Nat) (hm : p.method = "final")
    (het : p.energy_tol = some et) (hft : p.force_tol = some ft) :
    learnStep env p st cands =
      .ok { st := { (stepPre env p st cands).1 with
                    parent_calls := (stepPre env p st cands).1.parent_calls + 1 },
            cands := (stepPre env p st cands).2.2,
            terminate := (env.termFinal (stepPre env p st cands).2.2 et ft).1,
            metric := (env.termFinal (stepPre env p st cands).2.2 et ft).2,
            calcOut := (stepPre env p st cands).2.1,
            queryRan := (queryPhase env p st cands).2.1,
            queried_images := (queryPhase env p st cands).2.2,
            evalCalls := 1,
            evalMerged := [] } := by
  simp only [learnStep, hm, het, hft]
  simp

/-! ## C4 -/

/-- C4: in `iter` mode with `convergence_check` set to `True`, every
iteration bumps `parent_calls` by exactly one and merges the tested image
returned by the criteria into the training set via `add_data`
(lines 137-140) — the resulting state formula does not depend on the
terminate flag returned in `terminate_list[0]`, so this happens whether or
not `current_i >= total_i` decided to stop; with `convergence_check`
`False`, the evaluate phase performs no extra count and no merge. -/
theorem C4_iter_convergence_check (env : Env) (p : Params) (st : LState)
    (cands : List Atoms) (tot et : Nat) (b : Bool)
    (hm : p.method = "iter") (htot : p.num_iterations = some tot)
    (het : p.energy_tol = some et) (hcc : p.convergence_check = some b) :
    learnStep env p st cands =
      (if b then
        .ok { st := (add_data env
                { (stepPre env p st cands).1 with
                  parent_calls := (stepPre env p st cands).1.parent_calls + 1 }
                (env.termIter (stepPre env p st cands).1.iteration tot
                  (stepPre env p st cands).2.2 et b).2.2).1,
              cands := (stepPre env p st cands).2.2,
              terminate := (env.termIter (stepPre env p st cands).1.iteration tot
                  (stepPre env p st cands).2.2 et b).1,
              metric := (env.termIter (stepPre env p st cands).1.iteration tot
                  (stepPre env p st cands).2.2 et b).2.1,
              calcOut := (stepPre env p st cands).2.1,
              queryRan := (queryPhase env p st cands).2.1,
              queried_images := (queryPhase env p st cands).2.2,
              evalCalls := 1,
              evalMerged := (env.termIter (stepPre env p st cands).1.iteration tot
                  (stepPre env p st cands).2.2 et b).2.2 }
      else
        .ok { st := (stepPre env p st cands).1,
              cands := (stepPre env p st cands).2.2,
              terminate := (env.termIter (stepPre env p st cands).1.iteration tot
                  (stepPre env p st cands).2.2 et b).1,
              metric := (env.termIter (stepPre env p st cands).1.iteration tot
                  (stepPre env p st cands).2.2 et b).2.1,
              calcOut := (stepPre env p st cands).2.1,
              queryRan := (queryPhase env p st cands).2.1,
              queried_images := (queryPhase env p st cands).2.2,
              evalCalls := 0,
              evalMerged := [] }) := by
  simp only [learnStep, hm, htot, het, hcc]
  cases b
  · simp
  · simp

/-- Witness for C4 with `convergence_check` enabled: the tested image `[9]`
is merged and `parent_calls` advances by one even though the criteria
already voted to terminate. -/
theorem C4_witness :
    learnStep envC pIter stNE [] =
      .ok { st := { training_data := .single [1, 2, 9],
                    parent_dataset := [1, 2, 9],
                    parent_calls := 1, iteration := 1, ensemble := 0 },
            cands := [3, 4], terminate := true, metric := 2, calcOut := 0,
            queryRan := false, queried_images := [], evalCalls := 1,
            evalMerged := [9] } :=
  C4_iter_convergence_check envC pIter stNE [] 2 0 true rfl rfl rfl rfl

/-! ## C5 -/

/-- C5: over any run of the loop, `parent_calls` advances by exactly the
sum over the executed iterations of `stepOracleCost`: the number of images
queried in that iteration's query phase, plus one for `final` mode, plus
one for `iter` mode with `convergence_check` enabled, plus the number of
images queried by the `neb_iter` evaluate phase — so every oracle-counted
structure is counted exactly once and nothing else is counted.  The trace
also shows the iteration counter advances once per executed step. -/
theorem C5_parent_calls_accounting (env : Env) (p : Params) (fuel : Nat)
    (st : LState) (cands : List Atoms) (cl : List Nat) (tr : List StepOut)
    (r : LoopRes) (h : runLoop env p fuel st cands cl tr = .ok r) :
    ∃ steps, r.trace = tr ++ steps ∧
      r.state.parent_calls
          = st.parent_calls + (steps.map (stepOracleCost p)).sum ∧
      r.state.iteration = st.iteration + steps.length := by
  induction fuel generalizing st cands cl tr with
  | zero =>
      simp only [runLoop] at h
      injection h with h
      subst h
      exact ⟨[], by simp [LoopRes.trace], by simp [LoopRes.state],
             by simp [LoopRes.state]⟩
  | succ n ih =>
      simp only [runLoop] at h
      cases hs : learnStep env p st cands with
      | error e => rw [hs] at h; exact Except.noConfusion h
      | ok out =>
          rw [hs] at h
          dsimp only at h
          have hf := learnStep_ok_facts env p st cands out hs
          by_cases ht : out.terminate = true
          · rw [if_pos ht] at h
            injection h with h
            subst h
            refine ⟨[out], by simp [LoopRes.trace], ?_, ?_⟩
            · show out.st.parent_calls = _
              rw [hf.2.2.1]
              simp
            · show out.st.iteration = _
              rw [hf.2.2.2.1]
              rfl
          · rw [if_neg ht] at h
            obtain ⟨steps, h1, h2, h3⟩ := ih _ _ _ _ h
            refine ⟨out :: steps, ?_, ?_, ?_⟩
            · rw [h1]
              simp
            · rw [h2, hf.2.2.1]
              simp [List.sum_cons]
              omega
            · rw [h3, hf.2.2.2.1]
              simp [List.length_cons]
              omega

/-- Witness for C5 on a one-iteration `final`-mode run: the counter ends
at `0 + 1`, the single step's cost. -/
theorem C5_witness :
    (LoopRes.state rC5).parent_calls = stNE.parent_calls + 1 := by
  obtain ⟨steps, h1, h2, -⟩ :=
    C5_parent_calls_accounting envC pFin 3 stNE [] [] [] rC5 rfl
  have h1' : ([oC5] : List StepOut) = [] ++ steps := h1
  have hs : steps = [oC5] := by simpa using h1'.symm
  rw [h2, hs]
  rfl

/-! ## C1 -/

/-- C1: whenever `learn` returns normally, exactly one termination reason
is reported (the report is a two-valued `if`/`else`, lines 176-179), and
it is `maxIterations` precisely when the final `self.iteration` is at
least `al_convergence["num_iterations"]`, `convergenceMet` precisely
otherwise. -/
theorem C1_termination_report (env : Env) (p : Params) (fuel : Nat)
    (st0 : LState) (mlc : MLCalc) (it : Nat) (rsn : StopReason) (n : Nat)
    (h : learn env p fuel st0 = .ok (some (mlc, it, rsn)))
    (hn : p.num_iterations = some n) :
    (rsn = .maxIterations ↔ n ≤ it) ∧
    (rsn = .convergenceMet ↔ it < n) ∧
    ¬(rsn = .maxIterations ∧ rsn = .convergenceMet) := by
  unfold learn at h
  cases hr : runLoop env p fuel st0 [] [] [] with
  | error e => rw [hr] at h; exact Except.noConfusion h
  | ok r =>
      rw [hr] at h
      cases r with
      | fuelOut st cands cl tr => simp at h
      | finished st mlc2 cl tr =>
          rw [hn] at h
          simp only [Except.ok.injEq, Option.some.injEq, Prod.mk.injEq] at h
          obtain ⟨h1, h2, h3⟩ := h
          subst h2
          subst h3
          by_cases hle : n ≤ st.iteration
          · rw [if_pos hle]
            exact ⟨⟨fun _ => hle, fun _ => rfl⟩,
                   ⟨fun hx => StopReason.noConfusion hx,
                    fun hx => absurd hx (Nat.not_lt.mpr hle)⟩,
                   fun hx => StopReason.noConfusion hx.2⟩
          · rw [if_neg hle]
            have hlt : st.iteration < n := Nat.lt_of_not_le hle
            exact ⟨⟨fun hx => StopReason.noConfusion hx, fun hx => absurd hx hle⟩,
                   ⟨fun _ => hlt, fun _ => rfl⟩,
                   fun hx => StopReason.noConfusion hx.1⟩

/-- Witness for C1: a run that stops after one iteration with
`num_iterations = 2` reports convergence-met, not max-iterations. -/
theorem C1_witness :
    learn envC pFin 3 stNE = .ok (some (0, 1, .convergenceMet)) ∧
    (StopReason.convergenceMet = .maxIterations ↔ 2 ≤ 1) ∧
    (StopReason.convergenceMet = .convergenceMet ↔ 1 < 2) :=
  ⟨rfl,
   (C1_termination_report envC pFin 3 stNE 0 1 .convergenceMet 2 rfl rfl).1,
   (C1_termination_report envC pFin 3 stNE 0 1 .convergenceMet 2 rfl rfl).2.1⟩

/-! ## C10 -/

/-- C10: the terminal report (line 176) reads
`al_convergence["num_iterations"]` in every mode, although the `final`
evaluate phase never uses that key; hence a `final`-mode run whose
configuration lacks `num_iterations` (but has the keys `final` mode does
read) never returns the trained calculator: if the loop exits, `learn`
raises `KeyError("num_iterations")` after it; the only other possibility
is running out of fuel. -/
theorem C10_final_missing_num_iterations (env : Env) (p : Params)
    (fuel : Nat) (st0 : LState) (et ft : Nat)
    (hm : p.method = "final") (hni : p.num_iterations = none)
    (het : p.energy_tol = some et) (hft : p.force_tol = some ft) :
    learn env p fuel st0 = .error (.keyError "num_iterations") ∨
    learn env p fuel st0 = .ok none := by
  have hloop : ∀ (fuel : Nat) (st : LState) (cands : List Atoms)
      (cl : List Nat) (tr : List StepOut),
      ∃ r, runLoop env p fuel st cands cl tr = .ok r := by
    intro fuel
    induction fuel with
    | zero => intro st cands cl tr; exact ⟨_, rfl⟩
    | succ n ih =>
        intro st cands cl tr
        have ho := learnStep_final_eq env p st cands et ft hm het hft
        simp only [runLoop]
        rw [ho]
        dsimp only
        by_cases ht :
            (env.termFinal (stepPre env p st cands).2.2 et ft).1 = true
        · rw [if_pos ht]
          exact ⟨_, rfl⟩
        · rw [if_neg ht]
          exact ih _ _ _ _
  obtain ⟨r, hr⟩ := hloop fuel st0 [] [] []
  unfold learn
  rw [hr]
  cases r with
  | fuelOut st cands cl tr => right; rfl
  | finished st mlc cl tr => rw [hni]; left; rfl

/-- Witness for C10: a terminating `final`-mode run without
`num_iterations` ends in the `KeyError` instead of returning the trained
calculator. -/
theorem C10_witness :
    learn envC p10 3 stNE = .error (.keyError "num_iterations") := by
  have h := C10_final_missing_num_iterations envC p10 3 stNE 0 0 rfl rfl rfl rfl
  rcases h with h | h
  · exact h
  · rw [show learn envC p10 3 stNE
        = Except.error (PyErr.keyError "num_iterations") from rfl] at h
    exact Except.noConfusion h

/-! ## C8 -/

/-- C8 (amended): when ensembling is disabled, every successful loop
iteration leaves the previous training set as a prefix of the new one —
entries are only appended (by the query-phase `add_data`, the `iter`-mode
convergence-check merge, or the `neb_iter` merge), never removed or
reordered, and the length never decreases.  (With ensembling enabled the
member training sets are instead regenerated by bootstrap resampling; see
the counterexample.) -/
theorem C8_amended_append_only (env : Env) (p : Params) (st : LState)
    (cands : List Atoms) (o : StepOut)
    (h0 : st.ensemble = 0) (h : learnStep env p st cands = .ok o) :
    tdPreB st.training_data o.st.training_data = true ∧
    tdLen st.training_data ≤ tdLen o.st.training_data := by
  have hq : tdPreB st.training_data
      (stepPre env p st cands).1.training_data = true :=
    queryPhase_td_pre env p st cands h0
  have hqe : (stepPre env p st cands).1.ensemble = 0 := by
    rw [(stepPre_state env p st cands).2.2.1]
    exact h0
  suffices hpre : tdPreB st.training_data o.st.training_data = true from
    ⟨hpre, tdPreB_len _ _ hpre⟩
  simp only [learnStep] at h
  split at h
  · next hm =>
    split at h
    · exact Except.noConfusion h
    · next tot hni =>
      split at h
      · exact Except.noConfusion h
      · next et het =>
        split at h
        · exact Except.noConfusion h
        · next cc hcc =>
          split at h
          · next hcct =>
            injection h with h
            subst h
            refine tdPreB_trans _ _ _ hq
              (add_data_td_pre env
                { training_data := (stepPre env p st cands).1.training_data,
                  parent_dataset := (stepPre env p st cands).1.parent_dataset,
                  parent_calls := (stepPre env p st cands).1.parent_calls + 1,
                  iteration := (stepPre env p st cands).1.iteration,
                  ensemble := (stepPre env p st cands).1.ensemble }
                (env.termIter (stepPre env p st cands).1.iteration tot
                  (stepPre env p st cands).2.2 et cc).2.2 hqe)
          · next hccf =>
            injection h with h
            subst h
            exact hq
  · next hm1 =>
    split at h
    · next hm =>
      split at h
      · exact Except.noConfusion h
      · next et het =>
        split at h
        · exact Except.noConfusion h
        · next ft hft =>
          injection h with h
          subst h
          exact hq
    · next hm2 =>
      split at h
      · next hm =>
        split at h
        · exact Except.noConfusion h
        · next tot hni =>
          split at h
          · exact Except.noConfusion h
          · next et het =>
            injection h with h
            subst h
            exact tdPreB_trans _ _ _ hq
              (add_data_td_pre env (stepPre env p st cands).1
                (env.nebQuery (stepPre env p st cands).1.iteration tot
                  (stepPre env p st cands).2.2 p.samples_to_retrain et
                  env.ml2relax).2.2 hqe)
      · exact Except.noConfusion h

/-- Witness for the amended C8 at a concrete non-ensemble iteration:
`[1, 2]` is a prefix of the post-iteration training set `[1, 2, 5]`. -/
theorem C8_witness :
    tdPreB stNE1.training_data oC2.st.training_data = true ∧
    tdLen stNE1.training_data ≤ tdLen oC2.st.training_data :=
  C8_amended_append_only envC pFin stNE1 [] oC2 rfl rfl

/-- Counterexample to C8 as stated (for every run, including ensemble
runs): with ensembling enabled (size 2, spec-modelled bootstrap), one
iteration of the loop replaces the member training sets `[[0], [0]]` by
resampled sets `[[5, 5], [5, 5]]` of the grown parent dataset — the old
entries are removed, so the old training set is not a prefix of the new
one. -/
theorem C8_counterexample :
    Except.map (fun o => tdPreB stEns.training_data o.st.training_data)
      (learnStep envC pFin stEns []) = .ok false := by
  rfl
